import Mathlib

/-!
Verification of the face-embedding matching and ranking engine of detectvision.

The embedding follows src/lib/faceRecognition.ts and the analysis loop of
src/app/page.tsx. JS numbers are modelled as real numbers, arrays as lists,
thrown exceptions as Except values, and the stable Array.prototype.sort as
the stable List.mergeSort with the translated comparator.
-/

namespace DetectVision

open scoped List

/-- Bounding box of a detected face in pixel coordinates
(fields x, y, width, height, as produced in detectFacesInImage). -/
structure Box where
  x : ℝ
  y : ℝ
  width : ℝ
  height : ℝ

/-- Gender label, the value of the string literal type used in DetectedFace. -/
inductive Gender
  | male
  | female

/-- Probabilities of the seven expressions attached to a detected face. -/
structure FaceExpressions where
  happy : ℝ
  sad : ℝ
  angry : ℝ
  surprised : ℝ
  disgusted : ℝ
  fearful : ℝ
  neutral : ℝ

/-- DetectedFace record: a 128-dimensional descriptor, a bounding box, and the
optional soft attributes, exactly the shape built in detectFacesInImage. -/
structure DetectedFace where
  descriptor : List ℝ
  box : Box
  expressions : Option FaceExpressions
  age : Option ℝ
  gender : Option Gender
  genderProbability : Option ℝ

/-- MarathonPhoto record: an opaque id, the object URL, the underlying file
(modelled by its name), and the ordered list of detected faces. -/
structure MarathonPhoto where
  id : String
  imageUrl : String
  file : String
  faces : List DetectedFace

/-- MatchResult record as produced by findMatchingPhotos. -/
structure MatchResult where
  photo : MarathonPhoto
  distance : ℝ
  score : ℝ

/-- Failure raised by the embedding comparator on inputs of unequal length. -/
inductive DistanceError
  | DimensionMismatch
deriving DecidableEq

/-- Failure of the external per-photo face-extraction step
(the rejection path of detectFacesInImage). -/
structure ExtractionError where
  message : String

/-- Numeric value of the Euclidean distance between two equal-length
descriptors: sqrt of the sum of squared componentwise differences. -/
noncomputable def distVal (a b : List ℝ) : ℝ :=
  Real.sqrt (((a.zip b).map fun p => (p.1 - p.2) ^ 2).sum)

/-- Modelled from the spec: the embedding comparator that calculateDistance
delegates to. The body of faceapi.euclideanDistance lives in the face-api.js
dependency, outside this repository; spec section 4.1 states that it computes
the Euclidean distance sqrt of the sum of squared differences and that a
dimensionality mismatch fails fast as a fatal error, which we model as the
DimensionMismatch error value. -/
noncomputable def euclideanDistance (a b : List ℝ) : Except DistanceError ℝ :=
  if a.length = b.length then .ok (distVal a b) else .error .DimensionMismatch

/-- Translation of calculateDistance (src/lib/faceRecognition.ts lines
161-166): it returns faceapi.euclideanDistance applied to the two
descriptors. -/
noncomputable def calculateDistance (desc1 desc2 : List ℝ) : Except DistanceError ℝ :=
  euclideanDistance desc1 desc2

/-- Translation of Math.min over a spread array (line 203). The 0 result on
the empty list is never used: the caller only reaches this point when the
faces list of the photo is non-empty. -/
noncomputable def listMin : List ℝ → ℝ
  | [] => 0
  | x :: xs => xs.foldl min x

/-- Maximum of a list of reals, with 0 on the empty list; used to state the
largest-area selection property of extractReferenceFace. -/
noncomputable def listMax : List ℝ → ℝ
  | [] => 0
  | x :: xs => xs.foldl max x

/-- Translation of photo.faces.map of calculateDistance (lines 198-200); the
first thrown DimensionMismatch aborts the map, as a thrown exception does. -/
noncomputable def faceDistances (d : List ℝ) : List DetectedFace → Except DistanceError (List ℝ)
  | [] => .ok []
  | face :: rest =>
    match calculateDistance d face.descriptor with
    | .error e => .error e
    | .ok dist =>
      match faceDistances d rest with
      | .error e => .error e
      | .ok ds => .ok (dist :: ds)

/-- Comparator of the final sort of findMatchingPhotos, line 219: the JS
comparator (a, b) => b.score - a.score orders by score descending. -/
noncomputable def scoreDesc (a b : MatchResult) : Bool :=
  decide (b.score ≤ a.score)

/-- Translation of the photo loop of findMatchingPhotos (lines 188-216):
photos with no detected face are skipped; otherwise the minimum distance over
the faces of the photo is compared against the threshold and a MatchResult
with score max 0 (1 - minDistance) is appended on success. -/
noncomputable def collectMatches (d : List ℝ) (t : ℝ) :
    List MarathonPhoto → Except DistanceError (List MatchResult)
  | [] => .ok []
  | photo :: rest =>
    if photo.faces.length = 0 then
      collectMatches d t rest
    else
      match faceDistances d photo.faces with
      | .error e => .error e
      | .ok distances =>
        match collectMatches d t rest with
        | .error e => .error e
        | .ok restResults =>
          if listMin distances ≤ t then
            .ok (⟨photo, listMin distances, max 0 (1 - listMin distances)⟩ :: restResults)
          else
            .ok restResults

/-- Translation of findMatchingPhotos (src/lib/faceRecognition.ts lines
183-222): collect the matches in input photo order, then sort them by score
descending. Array.prototype.sort is stable, so the sort is modelled by the
stable List.mergeSort with the translated comparator. -/
noncomputable def findMatchingPhotos (myDescriptor : List ℝ) (photos : List MarathonPhoto)
    (threshold : ℝ) : Except DistanceError (List MatchResult) :=
  match collectMatches myDescriptor threshold photos with
  | .error e => .error e
  | .ok results => .ok (results.mergeSort scoreDesc)

/-- Representative distance of a photo: the minimum over its faces of the
distance between the reference descriptor and the face descriptor. -/
noncomputable def photoMinDistance (d : List ℝ) (p : MarathonPhoto) : ℝ :=
  listMin (p.faces.map fun f => distVal d f.descriptor)

/-- Reference list written from the words of spec section 4.3: keep exactly
the photos that have at least one detected face and whose representative
distance is at most the threshold, in input order, and emit for each one a
MatchResult carrying that distance and score max 0 (1 - distance). -/
noncomputable def matchSpec (d : List ℝ) (t : ℝ) (photos : List MarathonPhoto) :
    List MatchResult :=
  (photos.filter fun p => decide (p.faces.length ≠ 0) && decide (photoMinDistance d p ≤ t)).map
    fun p => ⟨p, photoMinDistance d p, max 0 (1 - photoMinDistance d p)⟩

/-- Well-formedness of a matching run: every stored face descriptor has the
same length as the reference descriptor. -/
def WellFormed (d : List ℝ) (photos : List MarathonPhoto) : Prop :=
  ∀ p ∈ photos, ∀ f ∈ p.faces, f.descriptor.length = d.length

/-- Comparator of the reference-face sort (lines 242-246): the JS comparator
(a, b) => areaB - areaA orders by bounding-box area descending. -/
noncomputable def areaDesc (a b : DetectedFace) : Bool :=
  decide (b.box.width * b.box.height ≤ a.box.width * a.box.height)

/-- Area of the bounding box of a face, width times height. -/
noncomputable def faceArea (f : DetectedFace) : ℝ :=
  f.box.width * f.box.height

/-- Largest bounding-box area among a list of faces. -/
noncomputable def maxFaceArea (faces : List DetectedFace) : ℝ :=
  listMax (faces.map faceArea)

/-- Translation of the face-selection logic of extractReferenceFace
(src/lib/faceRecognition.ts lines 236-249), applied to the list of faces the
external detection step returned for the reference image: null on an empty
list; with more than one face the list is first sorted by bounding-box area
descending (stable sort); the descriptor of the first face is returned. -/
noncomputable def extractReferenceFace (faces : List DetectedFace) : Option (List ℝ) :=
  match faces with
  | [] => none
  | f :: fs =>
    if 0 < fs.length then
      ((f :: fs).mergeSort areaDesc).head?.map fun g => g.descriptor
    else
      some f.descriptor

/-- Translation of the per-photo detection loop of handleAnalyze
(src/app/page.tsx lines 155-175). The outcome of the external
detectFacesInImage call for each photo is an oracle parameter; the try/catch
body records a failing photo with an empty face list and keeps going. -/
def analyzeLoop (detect : MarathonPhoto → Except ExtractionError (List DetectedFace)) :
    List MarathonPhoto → List MarathonPhoto
  | [] => []
  | photo :: rest =>
    (match detect photo with
     | .ok faces => ⟨photo.id, photo.imageUrl, photo.file, faces⟩
     | .error _ => ⟨photo.id, photo.imageUrl, photo.file, []⟩) :: analyzeLoop detect rest

/-- Crop-region arithmetic of cropFaceFromImage (src/lib/faceRecognition.ts
lines 329-344): expand the box by padding times its width and height on each
side, clamp the origin at 0, and cap the extent at the image edge. -/
noncomputable def cropRegion (imgWidth imgHeight : ℝ) (box : Box) (padding : ℝ) : Box :=
  ⟨max 0 (box.x - box.width * padding),
   max 0 (box.y - box.height * padding),
   min (imgWidth - max 0 (box.x - box.width * padding)) (box.width + box.width * padding * 2),
   min (imgHeight - max 0 (box.y - box.height * padding)) (box.height + box.height * padding * 2)⟩

/-- Reference region written from the words of the spec: the original
bounding-box region intersected with the image rectangle. -/
noncomputable def clipBox (imgWidth imgHeight : ℝ) (box : Box) : Box :=
  ⟨max 0 box.x,
   max 0 box.y,
   min imgWidth (box.x + box.width) - max 0 box.x,
   min imgHeight (box.y + box.height) - max 0 box.y⟩

/-- State-passing translation of findMatchingPhotos in which the photos array
is threaded as explicit state: every step of the source only reads photo
fields, performs no assignment to any photo or face and calls no mutating
array method on them, so each array cell is returned exactly as it was read,
in all branches including the thrown-error one. -/
noncomputable def collectMatchesSt (d : List ℝ) (t : ℝ) :
    List MarathonPhoto → Except DistanceError (List MatchResult) × List MarathonPhoto
  | [] => (.ok [], [])
  | photo :: rest =>
    if photo.faces.length = 0 then
      ((collectMatchesSt d t rest).1, photo :: (collectMatchesSt d t rest).2)
    else
      match faceDistances d photo.faces with
      | .error e => (.error e, photo :: rest)
      | .ok distances =>
        match (collectMatchesSt d t rest).1 with
        | .error e => (.error e, photo :: (collectMatchesSt d t rest).2)
        | .ok restResults =>
          if listMin distances ≤ t then
            (.ok (⟨photo, listMin distances, max 0 (1 - listMin distances)⟩ :: restResults),
              photo :: (collectMatchesSt d t rest).2)
          else
            (.ok restResults, photo :: (collectMatchesSt d t rest).2)

/-- State-passing findMatchingPhotos: the local results list is sorted, the
photos state is handed back unchanged by the loop. -/
noncomputable def findMatchingPhotosSt (myDescriptor : List ℝ) (photos : List MarathonPhoto)
    (threshold : ℝ) : Except DistanceError (List MatchResult) × List MarathonPhoto :=
  match (collectMatchesSt myDescriptor threshold photos).1 with
  | .error e => (.error e, (collectMatchesSt myDescriptor threshold photos).2)
  | .ok results =>
    (.ok (results.mergeSort scoreDesc), (collectMatchesSt myDescriptor threshold photos).2)

/-- Sample face used to instantiate the verified properties. -/
def wFace : DetectedFace :=
  ⟨[], ⟨0, 0, 1, 1⟩, none, none, none, none⟩

/-- Second sample face, with a larger bounding box. -/
def wFace2 : DetectedFace :=
  ⟨[], ⟨0, 0, 2, 2⟩, none, none, none, none⟩

/-- Sample photo holding one detected face. -/
def wPhoto : MarathonPhoto :=
  ⟨"p1", "url1", "file1", [wFace]⟩

/-! Helper lemmas. -/

theorem zipSum_comm : ∀ a b : List ℝ,
    ((a.zip b).map fun p => (p.1 - p.2) ^ 2).sum =
      ((b.zip a).map fun p => (p.1 - p.2) ^ 2).sum := by
  intro a
  induction a with
  | nil => intro b; cases b <;> simp
  | cons x xs ih =>
    intro b
    cases b with
    | nil => simp
    | cons y ys =>
      simp only [List.zip_cons_cons, List.map_cons, List.sum_cons, ih ys]
      ring

theorem zipSum_eq_range_sum : ∀ a b : List ℝ, a.length = b.length →
    ((a.zip b).map fun p => (p.1 - p.2) ^ 2).sum =
      ∑ i ∈ Finset.range a.length, (a.getD i 0 - b.getD i 0) ^ 2 := by
  intro a
  induction a with
  | nil => intro b h; simp
  | cons x xs ih =>
    intro b h
    cases b with
    | nil => simp at h
    | cons y ys =>
      have hlen : xs.length = ys.length := by simpa using h
      simp only [List.zip_cons_cons, List.map_cons, List.sum_cons, List.length_cons]
      rw [Finset.sum_range_succ']
      simp only [List.getD_cons_succ, List.getD_cons_zero]
      rw [ih ys hlen]
      ring

theorem distVal_comm (a b : List ℝ) : distVal a b = distVal b a := by
  unfold distVal
  rw [zipSum_comm]

theorem distVal_eq_zero_iff (a b : List ℝ) (h : a.length = b.length) :
    distVal a b = 0 ↔ a = b := by
  unfold distVal
  rw [zipSum_eq_range_sum a b h,
    Real.sqrt_eq_zero (Finset.sum_nonneg fun i _ => sq_nonneg _)]
  constructor
  · intro hs
    have hall := (Finset.sum_eq_zero_iff_of_nonneg fun i _ => sq_nonneg _).mp hs
    apply List.ext_getElem h
    intro i h1 h2
    have hi := hall i (Finset.mem_range.mpr h1)
    have hsub : a.getD i 0 - b.getD i 0 = 0 := by
      have := pow_eq_zero_iff (n := 2) (by norm_num) |>.mp hi
      exact this
    have hgd : a.getD i 0 = b.getD i 0 := by linarith
    have ha' : a.getD i 0 = a[i] := by
      rw [List.getD_eq_getElem?_getD, List.getElem?_eq_getElem h1, Option.getD_some]
    have hb' : b.getD i 0 = b[i] := by
      rw [List.getD_eq_getElem?_getD, List.getElem?_eq_getElem h2, Option.getD_some]
    rw [← ha', ← hb']
    exact hgd
  · intro he
    subst he
    simp

theorem calculateDistance_ok (a b : List ℝ) (h : b.length = a.length) :
    calculateDistance a b = .ok (distVal a b) := by
  simp [calculateDistance, euclideanDistance, h]

theorem foldl_max_spec (xs : List ℝ) : ∀ a : ℝ,
    (xs.foldl max a = a ∨ xs.foldl max a ∈ xs) ∧
      a ≤ xs.foldl max a ∧ ∀ x ∈ xs, x ≤ xs.foldl max a := by
  induction xs with
  | nil =>
    intro a
    refine ⟨Or.inl rfl, le_refl a, ?_⟩
    intro x hx
    simp at hx
  | cons y ys ih =>
    intro a
    obtain ⟨hmem, hle, hall⟩ := ih (max a y)
    rw [List.foldl_cons]
    refine ⟨?_, le_trans (le_max_left a y) hle, ?_⟩
    · rcases hmem with h | h
      · rcases max_choice a y with hc | hc
        · exact Or.inl (h.trans hc)
        · exact Or.inr (by rw [h, hc]; exact List.mem_cons_self y ys)
      · exact Or.inr (List.mem_cons_of_mem y h)
    · intro x hx
      rcases List.mem_cons.mp hx with h | h
      · rw [h]
        exact le_trans (le_max_right a y) hle
      · exact hall x h

theorem listMax_mem_and_bound (xs : List ℝ) (h : xs ≠ []) :
    listMax xs ∈ xs ∧ ∀ x ∈ xs, x ≤ listMax xs := by
  match xs, h with
  | x :: rest, _ =>
    obtain ⟨hmem, hle, hall⟩ := foldl_max_spec rest x
    refine ⟨?_, ?_⟩
    · show rest.foldl max x ∈ x :: rest
      rcases hmem with h1 | h1
      · rw [h1]; exact List.mem_cons_self x rest
      · exact List.mem_cons_of_mem x h1
    · intro z hz
      show z ≤ rest.foldl max x
      rcases List.mem_cons.mp hz with h1 | h1
      · rw [h1]; exact hle
      · exact hall z h1

theorem find?_eq_head?_filter {α : Type _} (p : α → Bool) :
    ∀ l : List α, l.find? p = (l.filter p).head? := by
  intro l
  induction l with
  | nil => rfl
  | cons a l ih =>
    cases hpa : p a with
    | true =>
      rw [List.find?_cons_of_pos l hpa, List.filter_cons_of_pos hpa, List.head?_cons]
    | false =>
      have hpa' : ¬ p a := by simp [hpa]
      rw [List.find?_cons_of_neg l hpa', List.filter_cons_of_neg hpa', ih]

theorem areaDesc_trans : ∀ a b c : DetectedFace, areaDesc a b → areaDesc b c → areaDesc a c := by
  intro a b c hab hbc
  simp only [areaDesc, decide_eq_true_eq] at *
  exact le_trans hbc hab

theorem areaDesc_total : ∀ a b : DetectedFace, areaDesc a b || areaDesc b a := by
  intro a b
  simp only [areaDesc, Bool.or_eq_true, decide_eq_true_eq]
  exact le_total _ _

theorem scoreDesc_trans : ∀ a b c : MatchResult, scoreDesc a b → scoreDesc b c → scoreDesc a c := by
  intro a b c hab hbc
  simp only [scoreDesc, decide_eq_true_eq] at *
  exact le_trans hbc hab

theorem scoreDesc_total : ∀ a b : MatchResult, scoreDesc a b || scoreDesc b a := by
  intro a b
  simp only [scoreDesc, Bool.or_eq_true, decide_eq_true_eq]
  exact le_total _ _

theorem head?_mergeSort_areaDesc (l : List DetectedFace) (hl : l ≠ []) :
    (l.mergeSort areaDesc).head? = l.find? fun f => decide (maxFaceArea l ≤ faceArea f) := by
  have hperm : l.mergeSort areaDesc ~ l := List.mergeSort_perm l areaDesc
  have hne : l.mergeSort areaDesc ≠ [] := by
    intro h0
    exact hl ((h0 ▸ hperm).symm.eq_nil)
  obtain ⟨h, t, hout⟩ := List.exists_cons_of_ne_nil hne
  have pw := List.sorted_mergeSort areaDesc_trans areaDesc_total l
  have hmem_h : h ∈ l := hperm.mem_iff.mp (hout ▸ List.mem_cons_self h t)
  have hup : ∀ x ∈ l, faceArea x ≤ faceArea h := by
    intro x hx
    have hx' : x ∈ h :: t := hout ▸ hperm.mem_iff.mpr hx
    rcases List.mem_cons.mp hx' with hxe | hxt
    · rw [hxe]
    · have hrel := List.rel_of_pairwise_cons (hout ▸ pw) hxt
      exact of_decide_eq_true hrel
  have hmax : faceArea h = maxFaceArea l := by
    obtain ⟨hmem, hbound⟩ :=
      listMax_mem_and_bound (l.map faceArea) (by simpa using hl)
    apply le_antisymm
    · exact hbound _ (List.mem_map_of_mem faceArea hmem_h)
    · obtain ⟨g, hg, hge⟩ := List.mem_map.mp hmem
      calc maxFaceArea l = faceArea g := hge.symm
        _ ≤ faceArea h := hup g hg
  set p : DetectedFace → Bool := fun f => decide (faceArea h ≤ faceArea f) with hp
  have hph : p h = true := by simp [hp]
  have hfilter_area : ∀ x ∈ l.filter p, faceArea x = faceArea h := by
    intro x hxf
    have hx := List.mem_of_mem_filter hxf
    have hpx := List.of_mem_filter hxf
    exact le_antisymm (hup x hx) (of_decide_eq_true hpx)
  have hpair : (l.filter p).Pairwise fun a b => areaDesc a b := by
    apply List.pairwise_of_forall_mem_list
    intro x hx y hy
    have hxa := hfilter_area x hx
    have hya := hfilter_area y hy
    simp only [areaDesc, decide_eq_true_eq]
    exact le_of_eq (hya.trans hxa.symm)
  have hsub : l.filter p <+ l.mergeSort areaDesc :=
    List.sublist_mergeSort areaDesc_trans areaDesc_total hpair (List.filter_sublist l)
  have hsub2 : l.filter p <+ (l.mergeSort areaDesc).filter p := by
    have hself : (l.filter p).filter p = l.filter p :=
      List.filter_eq_self.mpr fun a ha => List.of_mem_filter ha
    calc l.filter p = (l.filter p).filter p := hself.symm
      _ <+ (l.mergeSort areaDesc).filter p := List.Sublist.filter p hsub
  have hlen : (l.filter p).length = ((l.mergeSort areaDesc).filter p).length :=
    ((hperm.filter p).length_eq).symm
  have hfeq : l.filter p = (l.mergeSort areaDesc).filter p := hsub2.eq_of_length hlen
  have hhead : ((l.mergeSort areaDesc).filter p).head? = some h := by
    rw [hout, List.filter_cons_of_pos hph, List.head?_cons]
  have hfind : l.find? p = some h := by
    rw [find?_eq_head?_filter p l, hfeq, hhead]
  have hpred : (fun f => decide (maxFaceArea l ≤ faceArea f)) = p := by
    funext f
    rw [hp, ← hmax]
  rw [hpred, hfind, hout, List.head?_cons]

theorem faceDistances_ok (d : List ℝ) :
    ∀ faces : List DetectedFace, (∀ f ∈ faces, f.descriptor.length = d.length) →
      faceDistances d faces = .ok (faces.map fun f => distVal d f.descriptor) := by
  intro faces
  induction faces with
  | nil => intro _; rfl
  | cons f fs ih =>
    intro hlen
    have hf : f.descriptor.length = d.length := hlen f (List.mem_cons_self f fs)
    have hrest := fun g hg => hlen g (List.mem_cons_of_mem f hg)
    simp [faceDistances, calculateDistance, euclideanDistance, hf, ih hrest]

theorem collectMatches_eq_matchSpec (d : List ℝ) (t : ℝ) :
    ∀ photos : List MarathonPhoto, WellFormed d photos →
      collectMatches d t photos = .ok (matchSpec d t photos) := by
  intro photos
  induction photos with
  | nil => intro _; rfl
  | cons photo rest ih =>
    intro hwf
    have hwp : ∀ f ∈ photo.faces, f.descriptor.length = d.length :=
      fun f hf => hwf photo (List.mem_cons_self photo rest) f hf
    have hwr : WellFormed d rest := fun p hp => hwf p (List.mem_cons_of_mem photo hp)
    have hih := ih hwr
    by_cases h0 : photo.faces.length = 0
    · simp only [collectMatches, if_pos h0, hih, matchSpec, List.filter_cons, h0]
      simp [matchSpec]
    · have hfd := faceDistances_ok d photo.faces hwp
      simp only [collectMatches, if_neg h0, hfd, hih]
      by_cases hmin : photoMinDistance d photo ≤ t
      · have hmin' : listMin (photo.faces.map fun f => distVal d f.descriptor) ≤ t := hmin
        simp only [if_pos hmin', matchSpec, List.filter_cons, h0, hmin]
        simp [photoMinDistance, h0, hmin]
      · have hmin' : ¬ listMin (photo.faces.map fun f => distVal d f.descriptor) ≤ t := hmin
        simp only [if_neg hmin', matchSpec, List.filter_cons, h0, hmin]
        simp [photoMinDistance, h0, hmin]

theorem findMatchingPhotos_ok_val (d : List ℝ) (photos : List MarathonPhoto) (t : ℝ)
    (out : List MatchResult) (hwf : WellFormed d photos)
    (hout : findMatchingPhotos d photos t = .ok out) :
    out = (matchSpec d t photos).mergeSort scoreDesc := by
  unfold findMatchingPhotos at hout
  rw [collectMatches_eq_matchSpec d t photos hwf] at hout
  exact (Except.ok.inj hout).symm

theorem analyzeLoop_eq_map
    (detect : MarathonPhoto → Except ExtractionError (List DetectedFace)) :
    ∀ photos : List MarathonPhoto,
      analyzeLoop detect photos = photos.map fun photo =>
        match detect photo with
        | .ok faces => ⟨photo.id, photo.imageUrl, photo.file, faces⟩
        | .error _ => ⟨photo.id, photo.imageUrl, photo.file, []⟩ := by
  intro photos
  induction photos with
  | nil => rfl
  | cons p ps ih => simp only [analyzeLoop, List.map_cons, ih]

theorem collectMatchesSt_spec (d : List ℝ) (t : ℝ) :
    ∀ photos : List MarathonPhoto,
      (collectMatchesSt d t photos).2 = photos ∧
      (collectMatchesSt d t photos).1 = collectMatches d t photos := by
  intro photos
  induction photos with
  | nil => exact ⟨rfl, rfl⟩
  | cons photo rest ih =>
    obtain ⟨ih2, ih1⟩ := ih
    by_cases h0 : photo.faces.length = 0
    · constructor
      · simp only [collectMatchesSt, if_pos h0, ih2]
      · simp only [collectMatchesSt, collectMatches, if_pos h0, ih1]
    · cases hfd : faceDistances d photo.faces with
      | error e =>
        constructor
        · simp only [collectMatchesSt, if_neg h0, hfd]
        · simp only [collectMatchesSt, collectMatches, if_neg h0, hfd]
      | ok distances =>
        cases hcr : collectMatches d t rest with
        | error e =>
          have hst : (collectMatchesSt d t rest).1 = Except.error e := by rw [ih1, hcr]
          constructor
          · simp only [collectMatchesSt, if_neg h0, hfd, hst, ih2]
          · simp only [collectMatchesSt, collectMatches, if_neg h0, hfd, hst, hcr]
        | ok rs =>
          have hst : (collectMatchesSt d t rest).1 = Except.ok rs := by rw [ih1, hcr]
          by_cases hmin : listMin distances ≤ t
          · constructor
            · simp only [collectMatchesSt, if_neg h0, hfd, hst, if_pos hmin, ih2]
            · simp only [collectMatchesSt, collectMatches, if_neg h0, hfd, hst, hcr,
                if_pos hmin]
          · constructor
            · simp only [collectMatchesSt, if_neg h0, hfd, hst, if_neg hmin, ih2]
            · simp only [collectMatchesSt, collectMatches, if_neg h0, hfd, hst, hcr,
                if_neg hmin]

/-! Claim theorems. -/

/-- C1: findMatchingPhotos emits exactly one MatchResult for each photo that
has at least one detected face and whose minimum face distance to the
reference is at most the threshold (boundary inclusive), and nothing else;
each result carries that minimum as its distance and score max 0
(1 - distance). The output is a permutation of the spec-side list matchSpec,
which contains exactly those entries in input order; photos with no faces or
with minimum distance above the threshold never appear in it. -/
theorem findMatchingPhotos_match_set (d : List ℝ) (photos : List MarathonPhoto) (t : ℝ)
    (hwf : WellFormed d photos) :
    ∃ out, findMatchingPhotos d photos t = .ok out ∧ out.Perm (matchSpec d t photos) := by
  refine ⟨(matchSpec d t photos).mergeSort scoreDesc, ?_, List.mergeSort_perm _ _⟩
  unfold findMatchingPhotos
  rw [collectMatches_eq_matchSpec d t photos hwf]

theorem findMatchingPhotos_match_set_witness :
    ∃ out, findMatchingPhotos [] [wPhoto] 0 = .ok out ∧
      out.Perm (matchSpec [] 0 [wPhoto]) :=
  findMatchingPhotos_match_set [] [wPhoto] 0 (by simp [WellFormed, wPhoto, wFace])

/-- C2: the output of findMatchingPhotos is sorted by score in descending
order, results with equal score keep the relative order of the pre-sort
match list matchSpec, and matchSpec lists the matched photos in input order
(its photo projection is a sublist of the input photo sequence), so ties are
resolved by first appearance in the input. -/
theorem findMatchingPhotos_sorted_and_stable (d : List ℝ) (photos : List MarathonPhoto)
    (t : ℝ) (out : List MatchResult) (hwf : WellFormed d photos)
    (hout : findMatchingPhotos d photos t = .ok out) :
    out.Pairwise (fun a b => b.score ≤ a.score) ∧
    (∀ r1 r2 : MatchResult, r1.score = r2.score →
      [r1, r2] <+ matchSpec d t photos → [r1, r2] <+ out) ∧
    (matchSpec d t photos).map (fun r => r.photo) <+ photos := by
  have hval := findMatchingPhotos_ok_val d photos t out hwf hout
  subst hval
  refine ⟨?_, ?_, ?_⟩
  · have hpw := List.sorted_mergeSort scoreDesc_trans scoreDesc_total (matchSpec d t photos)
    exact hpw.imp fun h => of_decide_eq_true h
  · intro r1 r2 hs hsub
    refine List.pair_sublist_mergeSort scoreDesc_trans scoreDesc_total ?_ hsub
    simp [scoreDesc, hs]
  · simp only [matchSpec, List.map_map]
    have hid : ((fun r : MatchResult => r.photo) ∘ fun p =>
        (⟨p, photoMinDistance d p, max 0 (1 - photoMinDistance d p)⟩ : MatchResult)) = id := rfl
    rw [hid, List.map_id]
    exact List.filter_sublist photos

theorem findMatchingPhotos_sorted_and_stable_witness :
    ([] : List MatchResult).Pairwise (fun a b => b.score ≤ a.score) ∧
    (∀ r1 r2 : MatchResult, r1.score = r2.score →
      [r1, r2] <+ matchSpec [] 0 [] → [r1, r2] <+ ([] : List MatchResult)) ∧
    (matchSpec [] 0 []).map (fun r => r.photo) <+ [] :=
  findMatchingPhotos_sorted_and_stable [] [] 0 [] (by simp [WellFormed])
    (by simp [findMatchingPhotos, collectMatches])

/-- C3: for thresholds t1 < t2, every photo emitted by findMatchingPhotos at
threshold t1 is also emitted at threshold t2. -/
theorem findMatchingPhotos_threshold_mono (d : List ℝ) (photos : List MarathonPhoto)
    (t1 t2 : ℝ) (hwf : WellFormed d photos) (hlt : t1 < t2)
    (out1 out2 : List MatchResult)
    (h1 : findMatchingPhotos d photos t1 = .ok out1)
    (h2 : findMatchingPhotos d photos t2 = .ok out2) :
    ∀ p : MarathonPhoto, p ∈ out1.map (fun r => r.photo) → p ∈ out2.map (fun r => r.photo) := by
  have hv1 := findMatchingPhotos_ok_val d photos t1 out1 hwf h1
  have hv2 := findMatchingPhotos_ok_val d photos t2 out2 hwf h2
  subst hv1
  subst hv2
  intro p hp
  rw [List.mem_map] at hp ⊢
  obtain ⟨r, hr, hrp⟩ := hp
  rw [List.mem_mergeSort] at hr
  simp only [matchSpec, List.mem_map, List.mem_filter] at hr
  obtain ⟨q, ⟨hq, hcond⟩, hrq⟩ := hr
  simp only [Bool.and_eq_true, decide_eq_true_eq] at hcond
  refine ⟨⟨q, photoMinDistance d q, max 0 (1 - photoMinDistance d q)⟩, ?_, ?_⟩
  · rw [List.mem_mergeSort]
    simp only [matchSpec, List.mem_map, List.mem_filter]
    refine ⟨q, ⟨hq, ?_⟩, rfl⟩
    simp only [Bool.and_eq_true, decide_eq_true_eq]
    exact ⟨hcond.1, le_trans hcond.2 (le_of_lt hlt)⟩
  · rw [← hrq] at hrp
    exact hrp

theorem findMatchingPhotos_threshold_mono_witness :
    wPhoto ∈ (([⟨wPhoto, 0, 1⟩] : List MatchResult).map fun r => r.photo) := by
  have hwf : WellFormed [] [wPhoto] := by simp [WellFormed, wPhoto, wFace]
  have hfl : wPhoto.faces.length = 1 := rfl
  have hpmd : photoMinDistance [] wPhoto = 0 := by
    simp [photoMinDistance, wPhoto, wFace, distVal, listMin]
  have hms : ∀ t : ℝ, 0 ≤ t →
      findMatchingPhotos [] [wPhoto] t = .ok [⟨wPhoto, 0, 1⟩] := by
    intro t ht
    unfold findMatchingPhotos
    rw [collectMatches_eq_matchSpec [] t [wPhoto] hwf]
    simp [matchSpec, hfl, hpmd, ht]
  exact findMatchingPhotos_threshold_mono [] [wPhoto] 0 1 hwf zero_lt_one
    [⟨wPhoto, 0, 1⟩] [⟨wPhoto, 0, 1⟩] (hms 0 (le_refl 0)) (hms 1 zero_le_one) wPhoto
    (by simp)

/-- C4: reference-face selection. On an empty detection list
extractReferenceFace reports failure (none, surfaced to the user as the
no-face-found condition); on a single face it returns that descriptor; on a
non-empty list it returns the descriptor of the first face whose
bounding-box area attains the maximum area, so the largest face wins and
ties go to the earliest detection. -/
theorem extractReferenceFace_selects_largest_face :
    extractReferenceFace [] = none ∧
    (∀ f : DetectedFace, extractReferenceFace [f] = some f.descriptor) ∧
    (∀ faces : List DetectedFace, faces ≠ [] →
      extractReferenceFace faces =
        (faces.find? fun f => decide (maxFaceArea faces ≤ faceArea f)).map
          fun f => f.descriptor) := by
  refine ⟨rfl, ?_, ?_⟩
  · intro f
    simp [extractReferenceFace]
  · intro faces hne
    match faces, hne with
    | f :: fs, _ =>
      by_cases hlen : 0 < fs.length
      · simp only [extractReferenceFace, if_pos hlen]
        rw [head?_mergeSort_areaDesc (f :: fs) (List.cons_ne_nil f fs)]
      · have hfs : fs = [] := List.eq_nil_of_length_eq_zero (Nat.eq_zero_of_not_pos hlen)
        subst hfs
        simp only [extractReferenceFace, if_neg hlen]
        have hmax : maxFaceArea [f] = faceArea f := rfl
        rw [List.find?_cons_of_pos _ (by simp [hmax])]
        rfl

theorem extractReferenceFace_selects_largest_face_witness :
    extractReferenceFace [] = none ∧
    extractReferenceFace [wFace] = some wFace.descriptor ∧
    extractReferenceFace [wFace2, wFace] =
      (([wFace2, wFace]).find? fun f => decide (maxFaceArea [wFace2, wFace] ≤ faceArea f)).map
        (fun f => f.descriptor) :=
  ⟨extractReferenceFace_selects_largest_face.1,
   extractReferenceFace_selects_largest_face.2.1 wFace,
   extractReferenceFace_selects_largest_face.2.2 [wFace2, wFace] (by simp)⟩

/-- C5: on 128-dimensional inputs calculateDistance returns the Euclidean
distance, the square root of the sum over the 128 indices of the squared
componentwise differences; it is symmetric in its arguments, and it returns
zero exactly when the two embeddings are componentwise equal. -/
theorem calculateDistance_euclidean_props (a b : List ℝ)
    (ha : a.length = 128) (hb : b.length = 128) :
    calculateDistance a b =
      .ok (Real.sqrt (∑ i ∈ Finset.range 128, (a.getD i 0 - b.getD i 0) ^ 2)) ∧
    calculateDistance a b = calculateDistance b a ∧
    (calculateDistance a b = .ok 0 ↔ a = b) := by
  have hlen : a.length = b.length := by rw [ha, hb]
  have hok : calculateDistance a b = .ok (distVal a b) :=
    calculateDistance_ok a b hlen.symm
  refine ⟨?_, ?_, ?_⟩
  · rw [hok]
    congr 1
    unfold distVal
    rw [zipSum_eq_range_sum a b hlen, ha]
  · rw [hok, calculateDistance_ok b a hlen, distVal_comm]
  · rw [hok]
    constructor
    · intro h
      exact (distVal_eq_zero_iff a b hlen).mp (Except.ok.inj h)
    · intro h
      rw [(distVal_eq_zero_iff a b hlen).mpr h]

theorem calculateDistance_euclidean_props_witness :
    calculateDistance (List.replicate 128 (0 : ℝ)) (List.replicate 128 (1 : ℝ)) =
      .ok (Real.sqrt (∑ i ∈ Finset.range 128,
        ((List.replicate 128 (0 : ℝ)).getD i 0 - (List.replicate 128 (1 : ℝ)).getD i 0) ^ 2)) ∧
    calculateDistance (List.replicate 128 (0 : ℝ)) (List.replicate 128 (1 : ℝ)) =
      calculateDistance (List.replicate 128 (1 : ℝ)) (List.replicate 128 (0 : ℝ)) ∧
    (calculateDistance (List.replicate 128 (0 : ℝ)) (List.replicate 128 (1 : ℝ)) = .ok 0 ↔
      List.replicate 128 (0 : ℝ) = List.replicate 128 (1 : ℝ)) :=
  calculateDistance_euclidean_props (List.replicate 128 0) (List.replicate 128 1)
    (by simp) (by simp)

/-- C6: calculateDistance takes the fatal DimensionMismatch error branch
exactly when the two descriptors have different lengths, and never on
equal-length inputs. -/
theorem calculateDistance_mismatch_iff (a b : List ℝ) :
    calculateDistance a b = .error .DimensionMismatch ↔ a.length ≠ b.length := by
  unfold calculateDistance euclideanDistance
  by_cases h : a.length = b.length <;> simp [h]

/-- C7: in the handleAnalyze detection loop, a photo whose extraction step
fails is recorded with an empty face list, the loop always produces one
output photo per input photo (no abort), and the entry at each position is
determined solely by the input photo at that position and the detection
outcome for it, so a failure leaves every other photo unaffected. -/
theorem handleAnalyze_isolates_failures
    (detect : MarathonPhoto → Except ExtractionError (List DetectedFace))
    (photos : List MarathonPhoto) (i : ℕ) :
    (analyzeLoop detect photos).length = photos.length ∧
    (analyzeLoop detect photos)[i]? = (photos[i]?).map fun photo =>
      match detect photo with
      | .ok faces => ⟨photo.id, photo.imageUrl, photo.file, faces⟩
      | .error _ => ⟨photo.id, photo.imageUrl, photo.file, []⟩ := by
  rw [analyzeLoop_eq_map]
  exact ⟨List.length_map _ _, List.getElem?_map _ _ i⟩

/-- C8: with padding 0, the crop region of cropFaceFromImage is exactly the
original bounding-box region clipped to the image rectangle; in particular,
when the padded box lies inside the image the region is the box itself. The
hypotheses are the BoundingBox data-model invariant that detected boxes have
non-negative coordinates. -/
theorem cropRegion_zero_padding (imgW imgH : ℝ) (box : Box)
    (hx : 0 ≤ box.x) (hy : 0 ≤ box.y) :
    cropRegion imgW imgH box 0 = clipBox imgW imgH box ∧
    (box.x + box.width ≤ imgW → box.y + box.height ≤ imgH →
      cropRegion imgW imgH box 0 = box) := by
  have hmx : max 0 box.x = box.x := max_eq_right hx
  have hmy : max 0 box.y = box.y := max_eq_right hy
  constructor
  · unfold cropRegion clipBox
    simp only [mul_zero, zero_mul, sub_zero, add_zero]
    rw [hmx, hmy, ← min_sub_sub_right, ← min_sub_sub_right,
      add_sub_cancel_left, add_sub_cancel_left]
  · intro h1 h2
    unfold cropRegion
    simp only [mul_zero, zero_mul, sub_zero, add_zero]
    rw [hmx, hmy, min_eq_right (by linarith), min_eq_right (by linarith)]

theorem cropRegion_zero_padding_witness :
    cropRegion 2 2 ⟨0, 0, 1, 1⟩ 0 = clipBox 2 2 ⟨0, 0, 1, 1⟩ ∧
    ((0 : ℝ) + 1 ≤ 2 → (0 : ℝ) + 1 ≤ 2 → cropRegion 2 2 ⟨0, 0, 1, 1⟩ 0 = ⟨0, 0, 1, 1⟩) :=
  cropRegion_zero_padding 2 2 ⟨0, 0, 1, 1⟩ (le_refl 0) (le_refl 0)

/-- C9: for any padding at least 0, the crop region computed by
cropFaceFromImage has non-negative origin and does not extend past the image
on the right or the bottom: the padded box is clipped to the image instead of
the operation failing. -/
theorem cropRegion_stays_in_bounds (imgW imgH : ℝ) (box : Box) (padding : ℝ)
    (hp : 0 ≤ padding) :
    0 ≤ (cropRegion imgW imgH box padding).x ∧
    0 ≤ (cropRegion imgW imgH box padding).y ∧
    (cropRegion imgW imgH box padding).x + (cropRegion imgW imgH box padding).width ≤ imgW ∧
    (cropRegion imgW imgH box padding).y + (cropRegion imgW imgH box padding).height ≤ imgH := by
  unfold cropRegion
  refine ⟨le_max_left 0 _, le_max_left 0 _, ?_, ?_⟩
  · have hmin := min_le_left (imgW - max 0 (box.x - box.width * padding))
      (box.width + box.width * padding * 2)
    linarith
  · have hmin := min_le_left (imgH - max 0 (box.y - box.height * padding))
      (box.height + box.height * padding * 2)
    linarith

theorem cropRegion_stays_in_bounds_witness :
    0 ≤ (cropRegion 2 2 ⟨0, 0, 1, 1⟩ 0).x ∧
    0 ≤ (cropRegion 2 2 ⟨0, 0, 1, 1⟩ 0).y ∧
    (cropRegion 2 2 ⟨0, 0, 1, 1⟩ 0).x + (cropRegion 2 2 ⟨0, 0, 1, 1⟩ 0).width ≤ 2 ∧
    (cropRegion 2 2 ⟨0, 0, 1, 1⟩ 0).y + (cropRegion 2 2 ⟨0, 0, 1, 1⟩ 0).height ≤ 2 :=
  cropRegion_stays_in_bounds 2 2 ⟨0, 0, 1, 1⟩ 0 (le_refl 0)

/-- C10: findMatchingPhotos does not mutate its inputs. In the state-passing
translation, in which the photos array with every nested face record is
threaded as explicit state through the loop, the state returned is equal to
the state passed in on every control path, and the returned value agrees
with the functional translation: the engine only reads the Photo and
DetectedFace records. -/
theorem findMatchingPhotos_no_mutation (d : List ℝ) (photos : List MarathonPhoto) (t : ℝ) :
    (findMatchingPhotosSt d photos t).2 = photos ∧
    (findMatchingPhotosSt d photos t).1 = findMatchingPhotos d photos t := by
  obtain ⟨h2, h1⟩ := collectMatchesSt_spec d t photos
  unfold findMatchingPhotosSt findMatchingPhotos
  rw [h1, h2]
  cases collectMatches d t photos <;> simp

end DetectVision
